import Mathlib

/-!
Verification model of `src/common/data/beer_process.py`: the beer-review
rating-normalization and dataset-materialization pipeline.

Python floats are modelled as rationals (`ℚ`), strings as `List Char`,
fallible steps as `Except Err` / `Option`.  The JSON decoder models
`json.loads` on the subset of JSON this dataset uses (objects with string
keys; string, integer/decimal number, boolean and null values; no escape
sequences, exponents or arrays).
-/

/-- Characters stripped by Python `str.strip()`. -/
def isPySpace (c : Char) : Bool :=
  c = ' ' || c = '\t' || c = '\n' || c = '\r' || c = '\x0b' || c = '\x0c'

/-- Model of Python `str.strip()`: drop leading and trailing whitespace. -/
def pyStrip (s : List Char) : List Char :=
  ((s.dropWhile isPySpace).reverse.dropWhile isPySpace).reverse

/-- Model of Python `s.split("/")`: split on every `'/'`, keeping empty fields.
`"".split("/") == [""]`, `"4//5".split("/") == ["4", "", "5"]`. -/
def splitSlash : List Char → List (List Char)
  | [] => [[]]
  | c :: rest =>
    if c = '/' then [] :: splitSlash rest
    else
      match splitSlash rest with
      | [] => [[c]]
      | p :: ps => (c :: p) :: ps

/-- Number of `'/'` characters in a string. -/
def countSlash (s : List Char) : ℕ := (s.filter (fun c => c = '/')).length

/-- Numeric value of a digit string, base 10. -/
def decDigits (l : List Char) : ℕ :=
  l.foldl (fun a c => 10 * a + (c.toNat - 48)) 0

/-- Unsigned decimal numeral: digits with an optional single decimal point,
at least one digit overall (`"4."` and `".5"` are accepted, as by Python
`float()`). -/
def parseUnsigned (l : List Char) : Option ℚ :=
  let ip := l.takeWhile (fun c => c ≠ '.')
  let rest := l.dropWhile (fun c => c ≠ '.')
  match rest with
  | [] =>
    if ip.isEmpty || !ip.all Char.isDigit then none
    else some ((decDigits ip : ℚ))
  | _ :: fp =>
    if (ip.isEmpty && fp.isEmpty) || !ip.all Char.isDigit || !fp.all Char.isDigit then none
    else some ((decDigits ip : ℚ) + (decDigits fp : ℚ) / (10 : ℚ) ^ fp.length)

/-- Model of Python `float()` on decimal literals: surrounding whitespace is
ignored, an optional sign precedes an unsigned decimal numeral.  (Exponents,
`inf`/`nan` and underscores are outside the modelled subset.)  Returns `none`
where `float()` raises `ValueError`. -/
def pyFloat (l : List Char) : Option ℚ :=
  match pyStrip l with
  | '-' :: rest => (parseUnsigned rest).map (fun q => -q)
  | '+' :: rest => parseUnsigned rest
  | t => parseUnsigned t

/-- Function `rescale` from `beer_process.py` lines 15-16:
`return c + (d - c) * ((x - a) / (b - a))`. -/
def rescale (x a b c d : ℚ) : ℚ :=
  c + (d - c) * ((x - a) / (b - a))

/-- Failure kinds of the pipeline, named after the spec's error taxonomy.
`formatError` covers the `IndexError` (no second `/`-field) and `ValueError`
(non-numeric field) the source raises while parsing a rating string;
`typeError` covers `TypeError`/`AttributeError` from subscripting a non-dict
or splitting a non-string; `zeroDivisionError` is the float division by zero
inside `rescale` when the denominator field is 0. -/
inductive Err where
  | parseError
  | missingField
  | formatError
  | typeError
  | zeroDivisionError
deriving DecidableEq

/-- The rating-rescaling step of `process_dataset` (lines 81-85 and 86-91):
`rescale(float(raw.split("/")[0]), 0, float(raw.split("/")[1]), c, d)`.
Indexing past the end of the split models `IndexError`, a failing `float()`
models `ValueError` (both `formatError`), and a zero denominator makes the
division inside `rescale` raise `ZeroDivisionError`. -/
def ratingValue (s : List Char) (c d : ℚ) : Except Err ℚ :=
  match (splitSlash s).get? 0 with
  | none => .error .formatError
  | some f0 =>
    match pyFloat f0 with
    | none => .error .formatError
    | some n =>
      match (splitSlash s).get? 1 with
      | none => .error .formatError
      | some f1 =>
        match pyFloat f1 with
        | none => .error .formatError
        | some m =>
          if m = 0 then .error .zeroDivisionError
          else .ok (rescale n 0 m c d)

/-- Decoded JSON values, on the subset this dataset uses (no arrays). -/
inductive Json where
  | null
  | bool (b : Bool)
  | num (q : ℚ)
  | str (s : String)
  | obj (fields : List (String × Json))

/-- JSON whitespace (as skipped by Python's `json` decoder). -/
def skipWs (s : List Char) : List Char :=
  s.dropWhile (fun c => c = ' ' || c = '\t' || c = '\n' || c = '\r')

/-- Body of a JSON string after the opening quote: plain characters up to the
closing quote (escape sequences are outside the modelled subset). -/
def parseStringBody : List Char → Option (List Char × List Char)
  | [] => none
  | c :: rest =>
    if c = '"' then some ([], rest)
    else if c = '\\' then none
    else (parseStringBody rest).map (fun p => (c :: p.1, p.2))

/-- Unsigned JSON number: digits with an optional fractional part
(exponents are outside the modelled subset). -/
def parseNumTail (l : List Char) : Option (ℚ × List Char) :=
  let ds := l.takeWhile Char.isDigit
  let r1 := l.dropWhile Char.isDigit
  if ds.isEmpty then none
  else
    match r1 with
    | '.' :: r2 =>
      let fs := r2.takeWhile Char.isDigit
      let r3 := r2.dropWhile Char.isDigit
      if fs.isEmpty then none
      else some ((decDigits ds : ℚ) + (decDigits fs : ℚ) / (10 : ℚ) ^ fs.length, r3)
    | _ => some ((decDigits ds : ℚ), r1)

mutual

/-- JSON value, fuelled recursive-descent decoder. -/
def parseJsonValue : ℕ → List Char → Option (Json × List Char)
  | 0, _ => none
  | _ + 1, [] => none
  | fuel + 1, c :: rest =>
    if c = '"' then
      (parseStringBody rest).map (fun p => (Json.str ⟨p.1⟩, p.2))
    else if c = '\x7b' then
      match skipWs rest with
      | '\x7d' :: r => some (Json.obj [], r)
      | r =>
        (parseJsonMembers fuel r).map (fun p => (Json.obj p.1, p.2))
    else
      match c :: rest with
      | 't' :: 'r' :: 'u' :: 'e' :: r => some (Json.bool true, r)
      | 'f' :: 'a' :: 'l' :: 's' :: 'e' :: r => some (Json.bool false, r)
      | 'n' :: 'u' :: 'l' :: 'l' :: r => some (Json.null, r)
      | '-' :: r => (parseNumTail r).map (fun p => (Json.num (-p.1), p.2))
      | l => (parseNumTail l).map (fun p => (Json.num p.1, p.2))

/-- Members of a JSON object, positioned after `{` (or after a `,`),
up to and including the closing `}`. -/
def parseJsonMembers : ℕ → List Char → Option (List (String × Json) × List Char)
  | 0, _ => none
  | fuel + 1, l =>
    match skipWs l with
    | '"' :: r =>
      match parseStringBody r with
      | none => none
      | some (k, r1) =>
        match skipWs r1 with
        | ':' :: r2 =>
          match parseJsonValue fuel (skipWs r2) with
          | none => none
          | some (v, r3) =>
            match skipWs r3 with
            | ',' :: r4 =>
              (parseJsonMembers fuel r4).map (fun p => ((⟨k⟩, v) :: p.1, p.2))
            | '\x7d' :: r4 => some ([(⟨k⟩, v)], r4)
            | _ => none
        | _ => none
    | _ => none

end

/-- Model of Python `json.loads`: decode one complete JSON value, allowing
surrounding whitespace; `none` where `json.loads` raises `JSONDecodeError`
(in particular on the empty string). -/
def jsonLoads (s : List Char) : Option Json :=
  match parseJsonValue (s.length + 1) (skipWs s) with
  | some (v, r) => if (skipWs r).isEmpty then some v else none
  | none => none

/-- Decoding `json.loads(line.strip())` from `process_dataset` line 50. -/
def decodeLine (line : List Char) : Option Json :=
  jsonLoads (pyStrip line)

/-- Python `bool()` of a decoded JSON value (line 51: `if not bool(row)`). -/
def jsonTruthy : Json → Bool
  | .null => false
  | .bool b => b
  | .num q => !(q == 0)
  | .str s => !s.isEmpty
  | .obj fields => !fields.isEmpty

/-- The `columns` mapping of `process_dataset` (lines 20-34): canonical field
name to source-schema key. -/
def columns (key : String) : String :=
  if key = "user_id" then "beer/brewerId"
  else if key = "user_name" then "review/profileName"
  else if key = "item_id" then "beer/beerId"
  else if key = "item_name" then "beer/name"
  else if key = "ABV" then "beer/ABV"
  else if key = "style" then "beer/style"
  else if key = "review" then "review/text"
  else if key = "timestamp" then "review/time"
  else if key = "rating" then "review/overall"
  else if key = "appearance" then "review/appearance"
  else if key = "aroma" then "review/aroma"
  else if key = "palate" then "review/palate"
  else if key = "taste" then "review/taste"
  else ""

/-- The `aspects` list of `process_dataset` (line 35). -/
def aspects : List String := ["appearance", "aroma", "palate", "taste"]

/-- Dictionary lookup with Python `dict` semantics for objects decoded by
`json.loads`: the last binding of a duplicated key wins. -/
def lookupLast (fields : List (String × Json)) (key : String) : Option Json :=
  match fields with
  | [] => none
  | (k, v) :: rest =>
    match lookupLast rest key with
    | some w => some w
    | none => if k = key then some v else none

/-- Subscripting `row[key]` of the decoded record.  A missing key raises
`KeyError` (the spec's `MissingFieldError`); subscripting a non-dict raises
`TypeError`. -/
def getField (row : Json) (key : String) : Except Err Json :=
  match row with
  | .obj fields =>
    match lookupLast fields key with
    | some v => .ok v
    | none => .error .missingField
  | _ => .error .typeError

/-- Reading `row[key]` for `.split(...)` requires the field value to be a string:
`.split` on a non-string raises `AttributeError` (modelled as `typeError`). -/
def getRatingStr (row : Json) (key : String) : Except Err (List Char) :=
  match getField row key with
  | .error e => .error e
  | .ok (.str s) => .ok s.data
  | .ok _ => .error .typeError

/-- Python `str()` of a decoded JSON value, as interpolated by the f-strings
on lines 67-71.  Decimal formatting of non-integer numbers and rendering of
nested objects are outside the modelled subset (this dataset's name, style
and ABV fields are strings). -/
def pyStr : Json → String
  | .null => "None"
  | .bool true => "True"
  | .bool false => "False"
  | .str s => s
  | .num q => if q.den = 1 then toString q.num else toString q.num ++ "/" ++ toString q.den
  | .obj _ => ""

/-- One row of `users.csv` (lines 54-59). -/
structure UserRow where
  user_id : Json
  user_name : Json

/-- One row of `items.csv` (lines 61-73). -/
structure ItemRow where
  item_id : Json
  name : Json
  style : Json
  abv : Json
  description : String

/-- One row of `data.csv` (lines 75-92). -/
structure InterRow where
  user_id : Json
  item_id : Json
  timestamp : Json
  review : Json
  rating : ℚ
  appearance : ℚ
  aroma : ℚ
  palate : ℚ
  taste : ℚ

/-- Target-interval configuration of `process_dataset` (argparse lines
169-172). -/
structure Config where
  min_rating : ℚ
  max_rating : ℚ
  aspect_min_rating : ℚ
  aspect_max_rating : ℚ

/-- Step `users.append(dict(user_id=..., user_name=...))` (lines 54-59). -/
def buildUser (row : Json) : Except Err UserRow :=
  match getField row (columns "user_id") with
  | .error e => .error e
  | .ok uid =>
    match getField row (columns "user_name") with
    | .error e => .error e
    | .ok uname => .ok ⟨uid, uname⟩

/-- Step `items.append(dict(item_id=..., name=..., style=..., abv=...,
description=f'...'))` (lines 61-73).  The description concatenation follows
the three f-strings exactly. -/
def buildItem (row : Json) : Except Err ItemRow :=
  match getField row (columns "item_id") with
  | .error e => .error e
  | .ok iid =>
    match getField row (columns "item_name") with
    | .error e => .error e
    | .ok nm =>
      match getField row (columns "style") with
      | .error e => .error e
      | .ok st =>
        match getField row (columns "ABV") with
        | .error e => .error e
        | .ok ab =>
          .ok ⟨iid, nm, st, ab,
            pyStr nm ++ " ; " ++ "Style: " ++ pyStr st ++ " " ++ "ABV: " ++ pyStr ab⟩

/-- The `sample` dict (lines 75-92): foreign keys, timestamp, review text,
then the rescaled overall rating and the four rescaled aspect ratings. -/
def buildSample (cfg : Config) (row : Json) : Except Err InterRow :=
  match getField row (columns "user_id") with
  | .error e => .error e
  | .ok uid =>
  match getField row (columns "item_id") with
  | .error e => .error e
  | .ok iid =>
  match getField row (columns "timestamp") with
  | .error e => .error e
  | .ok ts =>
  match getField row (columns "review") with
  | .error e => .error e
  | .ok rv =>
  match getRatingStr row (columns "rating") with
  | .error e => .error e
  | .ok rs =>
  match ratingValue rs cfg.min_rating cfg.max_rating with
  | .error e => .error e
  | .ok rating =>
  match getRatingStr row (columns "appearance") with
  | .error e => .error e
  | .ok aps =>
  match ratingValue aps cfg.aspect_min_rating cfg.aspect_max_rating with
  | .error e => .error e
  | .ok ap =>
  match getRatingStr row (columns "aroma") with
  | .error e => .error e
  | .ok ars =>
  match ratingValue ars cfg.aspect_min_rating cfg.aspect_max_rating with
  | .error e => .error e
  | .ok ar =>
  match getRatingStr row (columns "palate") with
  | .error e => .error e
  | .ok pas =>
  match ratingValue pas cfg.aspect_min_rating cfg.aspect_max_rating with
  | .error e => .error e
  | .ok pa =>
  match getRatingStr row (columns "taste") with
  | .error e => .error e
  | .ok tas =>
  match ratingValue tas cfg.aspect_min_rating cfg.aspect_max_rating with
  | .error e => .error e
  | .ok ta => .ok ⟨uid, iid, ts, rv, rating, ap, ar, pa, ta⟩

/-- The body of the per-line loop (lines 50-92): decode the stripped line
(`ParseError` aborts), skip falsy records (`if not bool(row): continue`,
signalled as `ok none`), otherwise build the user, item and interaction rows. -/
def processLine (cfg : Config) (line : List Char) : Except Err (Option (UserRow × ItemRow × InterRow)) :=
  match decodeLine line with
  | none => .error .parseError
  | some row =>
    if jsonTruthy row then
      match buildUser row with
      | .error e => .error e
      | .ok u =>
        match buildItem row with
        | .error e => .error e
        | .ok it =>
          match buildSample cfg row with
          | .error e => .error e
          | .ok d => .ok (some (u, it, d))
    else .ok none

/-- The whole loop (lines 44-92): the three append-only sequences `users`,
`items`, `data`, in encounter order; the first error aborts the run. -/
def processLines (cfg : Config) : List (List Char) → Except Err (List UserRow × List ItemRow × List InterRow)
  | [] => .ok ([], [], [])
  | line :: rest =>
    match processLine cfg line with
    | .error e => .error e
    | .ok none => processLines cfg rest
    | .ok (some (u, it, d)) =>
      match processLines cfg rest with
      | .error e => .error e
      | .ok (us, its, ds) => .ok (u :: us, it :: its, d :: ds)

/-- The three persisted tables: `data.csv`, `users.csv`, `items.csv`
(lines 94-100).  They are written only after the whole input has been
consumed, so a run either persists all three tables or none. -/
structure Output where
  data_csv : List InterRow
  users_csv : List UserRow
  items_csv : List ItemRow

/-- Driver `process_dataset` (lines 19-100) restricted to its data transformation:
one pass over the input lines, then the batch write of the three tables. -/
def process_dataset (cfg : Config) (lines : List (List Char)) : Except Err Output :=
  match processLines cfg lines with
  | .error e => .error e
  | .ok (us, its, ds) => .ok ⟨ds, us, its⟩

/-- The `i`-th `/`-separated field of a raw rating string (`raw.split("/")[i]`,
with `[]` as an out-of-range placeholder for stating claims). -/
def slashField (s : List Char) (i : ℕ) : List Char := (splitSlash s).getD i []

/-- A raw rating string is *valid* (spec §8) when, if both of its first two
`/`-fields parse as numbers `n` and `m`, they satisfy `0 ≤ n ≤ m`. -/
def ratingStrValid (s : List Char) : Bool :=
  match ((splitSlash s).get? 0).bind pyFloat, ((splitSlash s).get? 1).bind pyFloat with
  | some n, some m => decide (0 ≤ n ∧ n ≤ m)
  | _, _ => true

/-- The five source keys whose values are rescaled rating strings. -/
def ratingKeys : List String :=
  [columns "rating", columns "appearance", columns "aroma",
   columns "palate", columns "taste"]

/-- All five rating strings of a decoded record are valid (vacuous where a
rating field is missing or not a string — the pipeline then aborts anyway). -/
def recordRatingsValid (row : Json) : Bool :=
  ratingKeys.all fun k =>
    match getRatingStr row k with
    | .ok s => ratingStrValid s
    | .error _ => true

/-- A line's rating strings are valid, if it decodes to a record at all. -/
def lineRatingsValid (line : List Char) : Bool :=
  match decodeLine line with
  | some row => recordRatingsValid row
  | none => true

/-- Every line of the input that decodes to a record has valid rating
strings. -/
def linesRatingsValid (lines : List (List Char)) : Bool :=
  lines.all lineRatingsValid

/-- The spec's notion of a non-empty input line (§4.1, §8): one that decodes
to a non-empty (truthy) structure.  Lines that fail to decode abort the run,
so they never occur in a completed run. -/
def decodesNonEmpty (line : List Char) : Bool :=
  match decodeLine line with
  | some row => jsonTruthy row
  | none => false

/-- The configuration of the spec's examples:
`min_rating=1, max_rating=5, aspect_min_rating=1, aspect_max_rating=5`. -/
def cfg0 : Config := ⟨1, 5, 1, 5⟩

/-- A well-formed input line with all fourteen source fields. -/
def goodLine : List Char :=
  ("\x7b\"beer/brewerId\": \"1075\", \"review/profileName\": \"alice\", " ++
   "\"beer/beerId\": \"52159\", \"beer/name\": \"Lager X\", \"beer/ABV\": \"5.0\", " ++
   "\"beer/style\": \"Pale\", \"review/text\": \"good\", \"review/time\": \"123\", " ++
   "\"review/overall\": \"4/5\", \"review/appearance\": \"3/5\", \"review/aroma\": \"2/5\", " ++
   "\"review/palate\": \"5/5\", \"review/taste\": \"0/5\"\x7d").data

/-- The rows `process_dataset cfg0 [goodLine]` produces. -/
def goodInter : InterRow :=
  ⟨Json.str "1075", Json.str "52159", Json.str "123", Json.str "good",
   21/5, 17/5, 13/5, 5, 1⟩

def goodUser : UserRow := ⟨Json.str "1075", Json.str "alice"⟩

def goodItem : ItemRow :=
  ⟨Json.str "52159", Json.str "Lager X", Json.str "Pale", Json.str "5.0",
   "Lager X ; Style: Pale ABV: 5.0"⟩

def goodOut : Output := ⟨[goodInter], [goodUser], [goodItem]⟩

/-- Like `goodLine` but with overall rating `"6/5"`: numerator above the
denominator, a value the code rescales without any clamping. -/
def highLine : List Char :=
  ("\x7b\"beer/brewerId\": \"1075\", \"review/profileName\": \"alice\", " ++
   "\"beer/beerId\": \"52159\", \"beer/name\": \"Lager X\", \"beer/ABV\": \"5.0\", " ++
   "\"beer/style\": \"Pale\", \"review/text\": \"good\", \"review/time\": \"123\", " ++
   "\"review/overall\": \"6/5\", \"review/appearance\": \"3/5\", \"review/aroma\": \"2/5\", " ++
   "\"review/palate\": \"5/5\", \"review/taste\": \"0/5\"\x7d").data

/-- The interaction row for `highLine`: `1 + 4 * (6/5) = 29/5 = 5.8`. -/
def highInter : InterRow :=
  ⟨Json.str "1075", Json.str "52159", Json.str "123", Json.str "good",
   29/5, 17/5, 13/5, 5, 1⟩

def highOut : Output :=
  ⟨[highInter], [goodUser], [goodItem]⟩

/-- A line that strips to the empty string (`json.loads("")` raises). -/
def blankLine : List Char := "   ".data

/-- A line decoding to the falsy record `{}`. -/
def emptyObjLine : List Char := "\x7b\x7d".data

/-- A non-empty line that is not well-formed JSON. -/
def notJsonLine : List Char := "plop".data

/-- A raw rating string with two `/` characters. -/
def twoSlashStr : List Char := "4/5/6".data

/-- The record `goodLine` decodes to. -/
def goodRow : Json :=
  Json.obj
    [("beer/brewerId", .str "1075"), ("review/profileName", .str "alice"),
     ("beer/beerId", .str "52159"), ("beer/name", .str "Lager X"),
     ("beer/ABV", .str "5.0"), ("beer/style", .str "Pale"),
     ("review/text", .str "good"), ("review/time", .str "123"),
     ("review/overall", .str "4/5"), ("review/appearance", .str "3/5"),
     ("review/aroma", .str "2/5"), ("review/palate", .str "5/5"),
     ("review/taste", .str "0/5")]

theorem splitSlash_ne_nil (s : List Char) : splitSlash s ≠ [] := by
  induction s with
  | nil => simp [splitSlash]
  | cons c rest ih =>
    simp only [splitSlash]
    split
    · simp
    · split <;> simp

theorem splitSlash_length (s : List Char) : (splitSlash s).length = countSlash s + 1 := by
  induction s with
  | nil => simp [splitSlash, countSlash]
  | cons c rest ih =>
    by_cases hc : c = '/'
    · simp only [splitSlash, countSlash, List.filter_cons, hc, if_pos, List.length_cons] at *
      simp [ih, countSlash]
    · cases hs : splitSlash rest with
      | nil => exact absurd hs (splitSlash_ne_nil rest)
      | cons p ps =>
        simp only [splitSlash, hc, if_neg, hs, List.length_cons, countSlash,
          List.filter_cons, decide_eq_true_eq] at *
        simpa [hs, hc] using ih

theorem rescale_mem_Icc (n m c d : ℚ) (h0 : 0 ≤ n) (h1 : n ≤ m) (hm : 0 < m)
    (hcd : c ≤ d) : c ≤ rescale n 0 m c d ∧ rescale n 0 m c d ≤ d := by
  simp only [rescale, sub_zero]
  have ht0 : 0 ≤ n / m := div_nonneg h0 hm.le
  have ht1 : n / m ≤ 1 := (div_le_one hm).2 h1
  constructor
  · nlinarith [mul_nonneg (sub_nonneg.2 hcd) ht0]
  · nlinarith [mul_le_mul_of_nonneg_left ht1 (sub_nonneg.2 hcd)]

theorem rescale_mono_left (n n' m c d : ℚ) (hm : 0 < m) (hcd : c ≤ d)
    (hnn : n ≤ n') : rescale n 0 m c d ≤ rescale n' 0 m c d := by
  simp only [rescale, sub_zero]
  have hdiv : n / m ≤ n' / m := by gcongr
  nlinarith [mul_le_mul_of_nonneg_left hdiv (sub_nonneg.2 hcd)]

/-- C1: for every rating string `"<numerator>/<denominator>"` with numeric
sides and non-zero denominator, the pipeline's rating-rescaling step computes
`target_min + (target_max - target_min) * ((value - source_min) / (source_max
- source_min))` with `source_min = 0`, the numerator as value and the
denominator as `source_max`. -/
theorem rating_rescale_formula (s f0 f1 : List Char) (n m c d : ℚ)
    (hs : splitSlash s = [f0, f1]) (hf0 : pyFloat f0 = some n)
    (hf1 : pyFloat f1 = some m) (hm : m ≠ 0) :
    ratingValue s c d = .ok (c + (d - c) * ((n - 0) / (m - 0))) := by
  simp [ratingValue, hs, hf0, hf1, hm, rescale]

/-- C1 witness: input `"4/5"` with `min_rating = 1`, `max_rating = 5` yields
exactly `4.2`. -/
theorem rating_rescale_formula_witness :
    splitSlash "4/5".data = ["4".data, "5".data] ∧
    pyFloat "4".data = some 4 ∧ pyFloat "5".data = some 5 ∧ (5 : ℚ) ≠ 0 ∧
    ratingValue "4/5".data 1 5 = .ok (4.2 : ℚ) := by
  refine ⟨rfl, rfl, rfl, by norm_num, ?_⟩
  rw [rating_rescale_formula "4/5".data "4".data "5".data 4 5 1 5 rfl rfl rfl (by norm_num)]
  norm_num

/-- C2: for every valid rating string `"n/d"` with `0 ≤ n ≤ d`, `d > 0`, and
every target interval `[c, d']` (so `c ≤ d'`), the rescaled value lies within
`[c, d']` inclusive, and for fixed denominator and fixed target bounds the
rescaled value is monotone non-decreasing in the numerator. -/
theorem rescaled_bounds_and_monotone (s f0 f1 : List Char) (n n' m c d : ℚ)
    (hs : splitSlash s = [f0, f1]) (hf0 : pyFloat f0 = some n)
    (hf1 : pyFloat f1 = some m)
    (h0 : 0 ≤ n) (h1 : n ≤ m) (hm : 0 < m) (hcd : c ≤ d)
    (h1' : n' ≤ m) (hnn : n ≤ n') :
    ratingValue s c d = .ok (rescale n 0 m c d) ∧
    (c ≤ rescale n 0 m c d ∧ rescale n 0 m c d ≤ d) ∧
    rescale n 0 m c d ≤ rescale n' 0 m c d := by
  refine ⟨?_, rescale_mem_Icc n m c d h0 h1 hm hcd,
    rescale_mono_left n n' m c d hm hcd hnn⟩
  simp [ratingValue, hs, hf0, hf1, hm.ne.symm]

/-- C2 witness: `"2/5"` into `[1, 5]` gives `13/5 ∈ [1, 5]`, and is below the
value for numerator `3`. -/
theorem rescaled_bounds_and_monotone_witness :
    splitSlash "2/5".data = ["2".data, "5".data] ∧
    pyFloat "2".data = some 2 ∧ pyFloat "5".data = some 5 ∧
    ((0 : ℚ) ≤ 2 ∧ (2 : ℚ) ≤ 5 ∧ (0 : ℚ) < 5 ∧ (1 : ℚ) ≤ 5 ∧ (3 : ℚ) ≤ 5 ∧ (2 : ℚ) ≤ 3) ∧
    (ratingValue "2/5".data 1 5 = .ok (rescale 2 0 5 1 5) ∧
      (1 ≤ rescale 2 0 5 1 5 ∧ rescale 2 0 5 1 5 ≤ 5) ∧
      rescale 2 0 5 1 5 ≤ rescale 3 0 5 1 5) := by
  exact ⟨rfl, rfl, rfl, by norm_num,
    rescaled_bounds_and_monotone "2/5".data "2".data "5".data 2 3 5 1 5 rfl rfl rfl
      (by norm_num) (by norm_num) (by norm_num) (by norm_num) (by norm_num) (by norm_num)⟩

/-- C8: for every denominator `m > 0` and every target interval, rescaling
with numerator `0` yields exactly `target_min`, and rescaling with numerator
equal to the denominator yields exactly `target_max`. -/
theorem rescale_endpoints (m c d : ℚ) (hm : 0 < m) :
    rescale 0 0 m c d = c ∧ rescale m 0 m c d = d := by
  constructor
  · simp [rescale]
  · simp only [rescale, sub_zero]
    rw [div_self hm.ne.symm]
    ring

/-- C8 witness: denominator `5`, target interval `[1, 5]`. -/
theorem rescale_endpoints_witness :
    (0 : ℚ) < 5 ∧ (rescale 0 0 5 1 5 = 1 ∧ rescale 5 0 5 1 5 = 5) :=
  ⟨by norm_num, rescale_endpoints 5 1 5 (by norm_num)⟩


theorem slashField_zero (s : List Char) :
    (splitSlash s)[0]? = some (slashField s 0) := by
  cases hs : splitSlash s with
  | nil => exact absurd hs (splitSlash_ne_nil s)
  | cons p ps => simp [slashField, hs]

theorem slashField_one (s f1 : List Char) (h : (splitSlash s)[1]? = some f1) :
    slashField s 1 = f1 := by
  simp [slashField, h]

theorem countSlash_zero_iff (s : List Char) :
    (splitSlash s)[1]? = none ↔ countSlash s = 0 := by
  rw [List.getElem?_eq_none_iff, splitSlash_length]
  omega

/-- C4 (amended): the rating-rescaling step fails with `formatError` exactly
when the raw string contains no `/` at all or one of its first two `/`-fields
is not numeric; it fails with `zeroDivisionError` exactly when the first two
fields are numeric (at least one `/` present) and the denominator field
parses to `0`; and these are the only failures.  A raw string with two or
more `/` whose first two fields are numeric is NOT rejected: the step uses
the first two fields. -/
theorem rating_failure_characterization (s : List Char) (c d : ℚ) :
    (ratingValue s c d = .error .formatError ↔
      countSlash s = 0 ∨ pyFloat (slashField s 0) = none ∨
        pyFloat (slashField s 1) = none) ∧
    (ratingValue s c d = .error .zeroDivisionError ↔
      countSlash s ≠ 0 ∧ (pyFloat (slashField s 0)).isSome ∧
        pyFloat (slashField s 1) = some 0) ∧
    (∀ e, ratingValue s c d = .error e →
      e = .formatError ∨ e = .zeroDivisionError) := by
  have h0 := slashField_zero s
  cases h1 : (splitSlash s)[1]? with
  | none =>
    have hc : countSlash s = 0 := (countSlash_zero_iff s).1 h1
    cases hpf : pyFloat (slashField s 0) with
    | none => simp [ratingValue, h0, h1, hpf, hc]
    | some n => simp [ratingValue, h0, h1, hpf, hc]
  | some f1 =>
    have hc : countSlash s ≠ 0 := by
      obtain ⟨hlt, -⟩ := List.getElem?_eq_some_iff.1 h1
      rw [splitSlash_length] at hlt
      omega
    have hsf : slashField s 1 = f1 := slashField_one s f1 h1
    cases hpf : pyFloat (slashField s 0) with
    | none => simp [ratingValue, h0, h1, hpf, hc, hsf]
    | some n =>
      cases hpf1 : pyFloat f1 with
      | none => simp [ratingValue, h0, h1, hpf, hpf1, hc, hsf]
      | some m =>
        by_cases hm : m = 0
        · subst hm
          simp [ratingValue, h0, h1, hpf, hpf1, hc, hsf]
        · simp [ratingValue, h0, h1, hpf, hpf1, hc, hsf, hm]

/-- C4 counterexample: the raw rating string `"4/5/6"` does not contain
exactly one `/`, yet the rating-rescaling step does not abort: it produces
the rescaled value `21/5` (using the first two `/`-fields). -/
theorem format_error_claim_counterexample :
    countSlash twoSlashStr = 2 ∧ ratingValue twoSlashStr 1 5 = .ok (21/5) :=
  ⟨rfl, by with_unfolding_all rfl⟩

/-- C4 witness: the characterization instantiated at the rating string
`"4/0"` (numeric sides, zero denominator: `ZeroDivisionError`, not
`FormatError`). -/
theorem rating_failure_characterization_witness :
    (ratingValue "4/0".data 1 5 = .error .formatError ↔
      countSlash "4/0".data = 0 ∨ pyFloat (slashField "4/0".data 0) = none ∨
        pyFloat (slashField "4/0".data 1) = none) ∧
    (ratingValue "4/0".data 1 5 = .error .zeroDivisionError ↔
      countSlash "4/0".data ≠ 0 ∧ (pyFloat (slashField "4/0".data 0)).isSome ∧
        pyFloat (slashField "4/0".data 1) = some 0) ∧
    (∀ e, ratingValue "4/0".data 1 5 = .error e →
      e = .formatError ∨ e = .zeroDivisionError) :=
  rating_failure_characterization "4/0".data 1 5

theorem description_append_fmt (a b c : String) :
    a ++ " ; " ++ "Style: " ++ b ++ " " ++ "ABV: " ++ c =
    a ++ " ; Style: " ++ b ++ " ABV: " ++ c := by
  rw [String.append_assoc a " ; " "Style: ",
      show (" ; " : String) ++ "Style: " = " ; Style: " from rfl,
      String.append_assoc (a ++ " ; Style: " ++ b) " " "ABV: ",
      show (" " : String) ++ "ABV: " = " ABV: " from rfl]

/-- C9: for every processed record, the derived item description is exactly
`"<name> ; Style: <style> ABV: <abv>"` — a space before `Style:` following
`" ; "`, and a single space between the style value and `ABV:`. -/
theorem buildItem_inv (row : Json) (item : ItemRow) (h : buildItem row = .ok item) :
    ∃ iid nm st ab,
      getField row (columns "item_id") = .ok iid ∧
      getField row (columns "item_name") = .ok nm ∧
      getField row (columns "style") = .ok st ∧
      getField row (columns "ABV") = .ok ab ∧
      item = ⟨iid, nm, st, ab,
        pyStr nm ++ " ; " ++ "Style: " ++ pyStr st ++ " " ++ "ABV: " ++ pyStr ab⟩ := by
  cases h1 : getField row (columns "item_id") with
  | error e => simp [buildItem, h1] at h
  | ok iid =>
    cases h2 : getField row (columns "item_name") with
    | error e => simp [buildItem, h1, h2] at h
    | ok nm =>
      cases h3 : getField row (columns "style") with
      | error e => simp [buildItem, h1, h2, h3] at h
      | ok st =>
        cases h4 : getField row (columns "ABV") with
        | error e => simp [buildItem, h1, h2, h3, h4] at h
        | ok ab =>
          simp only [buildItem, h1, h2, h3, h4, Except.ok.injEq] at h
          exact ⟨iid, nm, st, ab, rfl, rfl, rfl, rfl, h.symm⟩

theorem description_exact_format (row : Json) (item : ItemRow)
    (h : buildItem row = .ok item) :
    item.description =
      pyStr item.name ++ " ; Style: " ++ pyStr item.style ++ " ABV: " ++
        pyStr item.abv := by
  obtain ⟨iid, nm, st, ab, -, -, -, -, hitem⟩ := buildItem_inv row item h
  subst hitem
  exact description_append_fmt (pyStr nm) (pyStr st) (pyStr ab)

/-- C9 witness: `name="Lager X"`, `style="Pale"`, `abv="5.0"` renders exactly
`"Lager X ; Style: Pale ABV: 5.0"`. -/
theorem description_exact_format_witness :
    buildItem goodRow = .ok goodItem ∧
    goodItem.description =
      pyStr goodItem.name ++ " ; Style: " ++ pyStr goodItem.style ++ " ABV: " ++
        pyStr goodItem.abv ∧
    goodItem.description = "Lager X ; Style: Pale ABV: 5.0" := by
  refine ⟨by with_unfolding_all rfl, ?_, rfl⟩
  exact description_exact_format goodRow goodItem (by with_unfolding_all rfl)

theorem buildUser_inv (row : Json) (u : UserRow) (h : buildUser row = .ok u) :
    getField row (columns "user_id") = .ok u.user_id ∧
    getField row (columns "user_name") = .ok u.user_name := by
  cases h1 : getField row (columns "user_id") with
  | error e => simp [buildUser, h1] at h
  | ok uid =>
    cases h2 : getField row (columns "user_name") with
    | error e => simp [buildUser, h1, h2] at h
    | ok un =>
      simp only [buildUser, h1, h2, Except.ok.injEq] at h
      subst h
      exact ⟨rfl, rfl⟩

theorem buildSample_inv (cfg : Config) (row : Json) (d : InterRow)
    (h : buildSample cfg row = .ok d) :
    ∃ rs aps ars pas tas,
      getField row (columns "user_id") = .ok d.user_id ∧
      getField row (columns "item_id") = .ok d.item_id ∧
      getField row (columns "timestamp") = .ok d.timestamp ∧
      getField row (columns "review") = .ok d.review ∧
      getRatingStr row (columns "rating") = .ok rs ∧
      ratingValue rs cfg.min_rating cfg.max_rating = .ok d.rating ∧
      getRatingStr row (columns "appearance") = .ok aps ∧
      ratingValue aps cfg.aspect_min_rating cfg.aspect_max_rating = .ok d.appearance ∧
      getRatingStr row (columns "aroma") = .ok ars ∧
      ratingValue ars cfg.aspect_min_rating cfg.aspect_max_rating = .ok d.aroma ∧
      getRatingStr row (columns "palate") = .ok pas ∧
      ratingValue pas cfg.aspect_min_rating cfg.aspect_max_rating = .ok d.palate ∧
      getRatingStr row (columns "taste") = .ok tas ∧
      ratingValue tas cfg.aspect_min_rating cfg.aspect_max_rating = .ok d.taste := by
  cases hu : getField row (columns "user_id") with
  | error e => simp [buildSample, hu] at h
  | ok uid =>
  cases hi : getField row (columns "item_id") with
  | error e => simp [buildSample, hu, hi] at h
  | ok iid =>
  cases hts : getField row (columns "timestamp") with
  | error e => simp [buildSample, hu, hi, hts] at h
  | ok ts =>
  cases hrv : getField row (columns "review") with
  | error e => simp [buildSample, hu, hi, hts, hrv] at h
  | ok rv =>
  cases hrs : getRatingStr row (columns "rating") with
  | error e => simp [buildSample, hu, hi, hts, hrv, hrs] at h
  | ok rs =>
  cases hr : ratingValue rs cfg.min_rating cfg.max_rating with
  | error e => simp [buildSample, hu, hi, hts, hrv, hrs, hr] at h
  | ok rating =>
  cases haps : getRatingStr row (columns "appearance") with
  | error e => simp [buildSample, hu, hi, hts, hrv, hrs, hr, haps] at h
  | ok aps =>
  cases hap : ratingValue aps cfg.aspect_min_rating cfg.aspect_max_rating with
  | error e => simp [buildSample, hu, hi, hts, hrv, hrs, hr, haps, hap] at h
  | ok ap =>
  cases hars : getRatingStr row (columns "aroma") with
  | error e => simp [buildSample, hu, hi, hts, hrv, hrs, hr, haps, hap, hars] at h
  | ok ars =>
  cases har : ratingValue ars cfg.aspect_min_rating cfg.aspect_max_rating with
  | error e => simp [buildSample, hu, hi, hts, hrv, hrs, hr, haps, hap, hars, har] at h
  | ok ar =>
  cases hpas : getRatingStr row (columns "palate") with
  | error e => simp [buildSample, hu, hi, hts, hrv, hrs, hr, haps, hap, hars, har, hpas] at h
  | ok pas =>
  cases hpa : ratingValue pas cfg.aspect_min_rating cfg.aspect_max_rating with
  | error e =>
    simp [buildSample, hu, hi, hts, hrv, hrs, hr, haps, hap, hars, har, hpas, hpa] at h
  | ok pa =>
  cases htas : getRatingStr row (columns "taste") with
  | error e =>
    simp [buildSample, hu, hi, hts, hrv, hrs, hr, haps, hap, hars, har, hpas, hpa, htas] at h
  | ok tas =>
  cases hta : ratingValue tas cfg.aspect_min_rating cfg.aspect_max_rating with
  | error e =>
    simp [buildSample, hu, hi, hts, hrv, hrs, hr, haps, hap, hars, har, hpas, hpa, htas,
      hta] at h
  | ok ta =>
    simp only [buildSample, hu, hi, hts, hrv, hrs, hr, haps, hap, hars, har, hpas, hpa,
      htas, hta, Except.ok.injEq] at h
    subst h
    exact ⟨rs, aps, ars, pas, tas, rfl, rfl, rfl, rfl, rfl, hr, rfl, hap, rfl, har,
      rfl, hpa, rfl, hta⟩

theorem recordRatingsValid_spec (row : Json) (k : String) (s : List Char)
    (hv : recordRatingsValid row = true) (hk : k ∈ ratingKeys)
    (hs : getRatingStr row k = .ok s) : ratingStrValid s = true := by
  have h := (List.all_eq_true.1 hv) k hk
  simpa [hs] using h

theorem ratingValue_mem (s : List Char) (c d r : ℚ) (hcd : c ≤ d)
    (hval : ratingStrValid s = true) (hok : ratingValue s c d = .ok r) :
    c ≤ r ∧ r ≤ d := by
  have h0 := slashField_zero s
  cases h1 : (splitSlash s)[1]? with
  | none =>
    cases hpf : pyFloat (slashField s 0) with
    | none => simp [ratingValue, h0, h1, hpf] at hok
    | some n => simp [ratingValue, h0, h1, hpf] at hok
  | some f1 =>
    cases hpf : pyFloat (slashField s 0) with
    | none => simp [ratingValue, h0, h1, hpf] at hok
    | some n =>
      cases hpf1 : pyFloat f1 with
      | none => simp [ratingValue, h0, h1, hpf, hpf1] at hok
      | some m =>
        by_cases hm : m = 0
        · simp [ratingValue, h0, h1, hpf, hpf1, hm] at hok
        · simp [ratingValue, h0, h1, hpf, hpf1, hm] at hok
          subst hok
          have hval' : 0 ≤ n ∧ n ≤ m := by
            simpa [ratingStrValid, h0, h1, hpf, hpf1] using hval
          exact rescale_mem_Icc n m c d hval'.1 hval'.2
            (lt_of_le_of_ne (le_trans hval'.1 hval'.2) (Ne.symm hm)) hcd

theorem buildSample_bounds (cfg : Config) (row : Json) (d : InterRow)
    (hmin : cfg.min_rating ≤ cfg.max_rating)
    (hamin : cfg.aspect_min_rating ≤ cfg.aspect_max_rating)
    (hv : recordRatingsValid row = true)
    (h : buildSample cfg row = .ok d) :
    (cfg.min_rating ≤ d.rating ∧ d.rating ≤ cfg.max_rating) ∧
    (cfg.aspect_min_rating ≤ d.appearance ∧ d.appearance ≤ cfg.aspect_max_rating) ∧
    (cfg.aspect_min_rating ≤ d.aroma ∧ d.aroma ≤ cfg.aspect_max_rating) ∧
    (cfg.aspect_min_rating ≤ d.palate ∧ d.palate ≤ cfg.aspect_max_rating) ∧
    (cfg.aspect_min_rating ≤ d.taste ∧ d.taste ≤ cfg.aspect_max_rating) := by
  obtain ⟨rs, aps, ars, pas, tas, -, -, -, -, hrs, hr, haps, hap, hars, har, hpas, hpa,
    htas, hta⟩ := buildSample_inv cfg row d h
  refine ⟨?_, ?_, ?_, ?_, ?_⟩
  · exact ratingValue_mem rs _ _ _ hmin
      (recordRatingsValid_spec row _ rs hv (by simp [ratingKeys]) hrs) hr
  · exact ratingValue_mem aps _ _ _ hamin
      (recordRatingsValid_spec row _ aps hv (by simp [ratingKeys]) haps) hap
  · exact ratingValue_mem ars _ _ _ hamin
      (recordRatingsValid_spec row _ ars hv (by simp [ratingKeys]) hars) har
  · exact ratingValue_mem pas _ _ _ hamin
      (recordRatingsValid_spec row _ pas hv (by simp [ratingKeys]) hpas) hpa
  · exact ratingValue_mem tas _ _ _ hamin
      (recordRatingsValid_spec row _ tas hv (by simp [ratingKeys]) htas) hta

theorem processLine_skip (cfg : Config) (line : List Char) (row : Json)
    (hdec : decodeLine line = some row) (hfalsy : jsonTruthy row = false) :
    processLine cfg line = .ok none := by
  simp [processLine, hdec, hfalsy]

theorem processLine_some_inv (cfg : Config) (line : List Char) (u : UserRow)
    (it : ItemRow) (d : InterRow)
    (h : processLine cfg line = .ok (some (u, it, d))) :
    ∃ row, decodeLine line = some row ∧ jsonTruthy row = true ∧
      buildUser row = .ok u ∧ buildItem row = .ok it ∧ buildSample cfg row = .ok d := by
  cases hdec : decodeLine line with
  | none => simp [processLine, hdec] at h
  | some row =>
    cases ht : jsonTruthy row with
    | false => simp [processLine, hdec, ht] at h
    | true =>
      cases hbu : buildUser row with
      | error e => simp [processLine, hdec, ht, hbu] at h
      | ok u' =>
        cases hbi : buildItem row with
        | error e => simp [processLine, hdec, ht, hbu, hbi] at h
        | ok it' =>
          cases hbs : buildSample cfg row with
          | error e => simp [processLine, hdec, ht, hbu, hbi, hbs] at h
          | ok d' =>
            simp only [processLine, hdec, ht, hbu, hbi, hbs, if_true,
              Except.ok.injEq, Option.some.injEq, Prod.mk.injEq] at h
            obtain ⟨h1, h2, h3⟩ := h
            subst h1; subst h2; subst h3
            exact ⟨row, rfl, ht, hbu, hbi, hbs⟩

theorem processLine_skip_inv (cfg : Config) (line : List Char)
    (h : processLine cfg line = .ok none) : decodesNonEmpty line = false := by
  cases hdec : decodeLine line with
  | none => simp [processLine, hdec] at h
  | some row =>
    cases ht : jsonTruthy row with
    | false => simp [decodesNonEmpty, hdec, ht]
    | true =>
      exfalso
      cases hbu : buildUser row with
      | error e => simp [processLine, hdec, ht, hbu] at h
      | ok u =>
        cases hbi : buildItem row with
        | error e => simp [processLine, hdec, ht, hbu, hbi] at h
        | ok it =>
          cases hbs : buildSample cfg row with
          | error e => simp [processLine, hdec, ht, hbu, hbi, hbs] at h
          | ok d => simp [processLine, hdec, ht, hbu, hbi, hbs] at h

theorem processLine_some_nonEmpty (cfg : Config) (line : List Char) (u : UserRow)
    (it : ItemRow) (d : InterRow)
    (h : processLine cfg line = .ok (some (u, it, d))) :
    decodesNonEmpty line = true := by
  obtain ⟨row, hdec, ht, -, -, -⟩ := processLine_some_inv cfg line u it d h
  simp [decodesNonEmpty, hdec, ht]

theorem processLines_bounds (cfg : Config) (lines : List (List Char))
    (us : List UserRow) (its : List ItemRow) (ds : List InterRow)
    (hmin : cfg.min_rating ≤ cfg.max_rating)
    (hamin : cfg.aspect_min_rating ≤ cfg.aspect_max_rating)
    (hv : linesRatingsValid lines = true)
    (h : processLines cfg lines = .ok (us, its, ds)) :
    ∀ d ∈ ds,
      (cfg.min_rating ≤ d.rating ∧ d.rating ≤ cfg.max_rating) ∧
      (cfg.aspect_min_rating ≤ d.appearance ∧ d.appearance ≤ cfg.aspect_max_rating) ∧
      (cfg.aspect_min_rating ≤ d.aroma ∧ d.aroma ≤ cfg.aspect_max_rating) ∧
      (cfg.aspect_min_rating ≤ d.palate ∧ d.palate ≤ cfg.aspect_max_rating) ∧
      (cfg.aspect_min_rating ≤ d.taste ∧ d.taste ≤ cfg.aspect_max_rating) := by
  induction lines generalizing us its ds with
  | nil =>
    simp only [processLines, Except.ok.injEq, Prod.mk.injEq] at h
    obtain ⟨-, -, h3⟩ := h
    subst h3
    intro d hd
    cases hd
  | cons line rest ih =>
    have hv' : lineRatingsValid line = true ∧ linesRatingsValid rest = true := by
      simpa [linesRatingsValid] using hv
    cases hl : processLine cfg line with
    | error e => simp [processLines, hl] at h
    | ok o =>
      cases o with
      | none =>
        simp only [processLines, hl] at h
        exact ih us its ds hv'.2 h
      | some t =>
        obtain ⟨u, it, d0⟩ := t
        cases hrest : processLines cfg rest with
        | error e => simp [processLines, hl, hrest] at h
        | ok t' =>
          obtain ⟨us', its', ds'⟩ := t'
          simp only [processLines, hl, hrest, Except.ok.injEq, Prod.mk.injEq] at h
          obtain ⟨h1, h2, h3⟩ := h
          subst h1; subst h2; subst h3
          intro dd hdd
          rcases List.mem_cons.1 hdd with hdd | hdd
          · subst hdd
            obtain ⟨row, hdec, -, -, -, hbs⟩ := processLine_some_inv cfg line u it dd hl
            have hvrow : recordRatingsValid row = true := by
              have h0 := hv'.1
              rw [lineRatingsValid, hdec] at h0
              exact h0
            exact buildSample_bounds cfg row dd hmin hamin hvrow hbs
          · exact ih us' its' ds' hv'.2 hrest dd hdd

/-- C3 (amended): for every run that completes, provided every rating string
of every decoded record is valid (`"n/d"` with `0 ≤ n ≤ d`, so `d > 0` where
the run succeeded) and the configured intervals are ordered, all five numeric
fields of every produced interaction row lie within the configured target
intervals inclusive.  (The code performs no clamping, so the claim's
unconditional form fails: see the counterexample.) -/
theorem interaction_bounds_of_valid (cfg : Config) (lines : List (List Char))
    (out : Output)
    (hmin : cfg.min_rating ≤ cfg.max_rating)
    (hamin : cfg.aspect_min_rating ≤ cfg.aspect_max_rating)
    (hv : linesRatingsValid lines = true)
    (h : process_dataset cfg lines = .ok out) :
    ∀ d ∈ out.data_csv,
      (cfg.min_rating ≤ d.rating ∧ d.rating ≤ cfg.max_rating) ∧
      (cfg.aspect_min_rating ≤ d.appearance ∧ d.appearance ≤ cfg.aspect_max_rating) ∧
      (cfg.aspect_min_rating ≤ d.aroma ∧ d.aroma ≤ cfg.aspect_max_rating) ∧
      (cfg.aspect_min_rating ≤ d.palate ∧ d.palate ≤ cfg.aspect_max_rating) ∧
      (cfg.aspect_min_rating ≤ d.taste ∧ d.taste ≤ cfg.aspect_max_rating) := by
  cases hpl : processLines cfg lines with
  | error e => simp [process_dataset, hpl] at h
  | ok t =>
    obtain ⟨us, its, ds⟩ := t
    simp only [process_dataset, hpl, Except.ok.injEq] at h
    subst h
    exact processLines_bounds cfg lines us its ds hmin hamin hv hpl

set_option maxRecDepth 40000 in
/-- C3 counterexample: the line `highLine` carries the overall rating
`"6/5"`; the run completes and produces an interaction row whose rating
`29/5 = 5.8` exceeds `max_rating = 5`, so the claimed unconditional invariant
is false. -/
theorem interaction_bounds_counterexample :
    process_dataset cfg0 [highLine] = .ok highOut ∧
    highOut.data_csv = [highInter] ∧
    cfg0.max_rating < highInter.rating := by
  refine ⟨by with_unfolding_all rfl, rfl, ?_⟩
  show (5 : ℚ) < 29/5
  norm_num

set_option maxRecDepth 40000 in
/-- C3 witness: a one-line run with all five rating strings valid, target
intervals `[1, 5]`; every produced row is in bounds. -/
theorem interaction_bounds_of_valid_witness :
    cfg0.min_rating ≤ cfg0.max_rating ∧
    cfg0.aspect_min_rating ≤ cfg0.aspect_max_rating ∧
    linesRatingsValid [goodLine] = true ∧
    process_dataset cfg0 [goodLine] = .ok goodOut ∧
    ∀ d ∈ goodOut.data_csv,
      (cfg0.min_rating ≤ d.rating ∧ d.rating ≤ cfg0.max_rating) ∧
      (cfg0.aspect_min_rating ≤ d.appearance ∧ d.appearance ≤ cfg0.aspect_max_rating) ∧
      (cfg0.aspect_min_rating ≤ d.aroma ∧ d.aroma ≤ cfg0.aspect_max_rating) ∧
      (cfg0.aspect_min_rating ≤ d.palate ∧ d.palate ≤ cfg0.aspect_max_rating) ∧
      (cfg0.aspect_min_rating ≤ d.taste ∧ d.taste ≤ cfg0.aspect_max_rating) := by
  refine ⟨by norm_num [cfg0], by norm_num [cfg0], by with_unfolding_all decide,
    by with_unfolding_all rfl, ?_⟩
  exact interaction_bounds_of_valid cfg0 [goodLine] goodOut (by norm_num [cfg0])
    (by norm_num [cfg0]) (by with_unfolding_all decide) (by with_unfolding_all rfl)

theorem processLines_skip_middle (cfg : Config) (post : List (List Char))
    (line : List Char) (hskip : processLine cfg line = .ok none) :
    ∀ pre, processLines cfg (pre ++ line :: post) = processLines cfg (pre ++ post) := by
  intro pre
  induction pre with
  | nil => simp only [List.nil_append, processLines, hskip]
  | cons p ps ih =>
    simp only [List.cons_append, processLines, List.append_eq]
    rw [ih]

/-- C5 (amended): every input line that decodes to an empty/falsy structure
(such as `{}`) is skipped: it contributes zero rows to each of the three
tables and does not abort the run.  A line that is empty after trimming,
however, fails to decode (`json.loads("")` raises), so the run aborts with
`ParseError`: see the counterexample. -/
theorem falsy_line_skipped (cfg : Config) (pre post : List (List Char))
    (line : List Char) (row : Json)
    (hdec : decodeLine line = some row) (hfalsy : jsonTruthy row = false) :
    process_dataset cfg (pre ++ line :: post) = process_dataset cfg (pre ++ post) := by
  have hskip : processLine cfg line = .ok none := processLine_skip cfg line row hdec hfalsy
  unfold process_dataset
  rw [processLines_skip_middle cfg post line hskip pre]

/-- C5 counterexample: a whitespace-only line is empty after trimming, yet
the pipeline does not skip it: the run aborts with `ParseError` (the empty
string is not decodable), producing no output at all. -/
theorem empty_line_counterexample :
    pyStrip blankLine = [] ∧
    process_dataset cfg0 [blankLine] = .error .parseError :=
  ⟨rfl, by with_unfolding_all rfl⟩

set_option maxRecDepth 40000 in
/-- C5 witness: appending the `{}` line to a one-line input leaves the
output unchanged. -/
theorem falsy_line_skipped_witness :
    decodeLine emptyObjLine = some (Json.obj []) ∧
    jsonTruthy (Json.obj []) = false ∧
    process_dataset cfg0 [goodLine, emptyObjLine] = process_dataset cfg0 [goodLine] := by
  refine ⟨by with_unfolding_all rfl, rfl, ?_⟩
  exact falsy_line_skipped cfg0 [goodLine] [] emptyObjLine (Json.obj [])
    (by with_unfolding_all rfl) rfl

theorem processLines_length (cfg : Config) (lines : List (List Char))
    (us : List UserRow) (its : List ItemRow) (ds : List InterRow)
    (h : processLines cfg lines = .ok (us, its, ds)) :
    us.length = (lines.filter decodesNonEmpty).length ∧
    its.length = (lines.filter decodesNonEmpty).length ∧
    ds.length = (lines.filter decodesNonEmpty).length := by
  induction lines generalizing us its ds with
  | nil =>
    simp only [processLines, Except.ok.injEq, Prod.mk.injEq] at h
    obtain ⟨h1, h2, h3⟩ := h
    subst h1; subst h2; subst h3
    simp
  | cons line rest ih =>
    cases hl : processLine cfg line with
    | error e => simp [processLines, hl] at h
    | ok o =>
      cases o with
      | none =>
        have hne : decodesNonEmpty line = false := processLine_skip_inv cfg line hl
        simp only [processLines, hl] at h
        obtain ⟨h1, h2, h3⟩ := ih us its ds h
        simp [List.filter_cons, hne, h1, h2, h3]
      | some t =>
        obtain ⟨u, it, d⟩ := t
        have hne : decodesNonEmpty line = true :=
          processLine_some_nonEmpty cfg line u it d hl
        cases hrest : processLines cfg rest with
        | error e => simp [processLines, hl, hrest] at h
        | ok t' =>
          obtain ⟨us', its', ds'⟩ := t'
          simp only [processLines, hl, hrest, Except.ok.injEq, Prod.mk.injEq] at h
          obtain ⟨h1, h2, h3⟩ := h
          subst h1; subst h2; subst h3
          obtain ⟨h1, h2, h3⟩ := ih us' its' ds' hrest
          simp [List.filter_cons, hne, h1, h2, h3]

/-- C6: for every input file on which the run completes, the number of rows
in each of the three output tables equals the number of non-empty input lines
— in the spec's sense (§4.1, §8): lines that decode to a non-empty (truthy)
structure.  One row per such line, no aggregation or deduplication. -/
theorem row_count_invariant (cfg : Config) (lines : List (List Char))
    (out : Output) (h : process_dataset cfg lines = .ok out) :
    out.data_csv.length = (lines.filter decodesNonEmpty).length ∧
    out.users_csv.length = (lines.filter decodesNonEmpty).length ∧
    out.items_csv.length = (lines.filter decodesNonEmpty).length := by
  cases hpl : processLines cfg lines with
  | error e => simp [process_dataset, hpl] at h
  | ok t =>
    obtain ⟨us, its, ds⟩ := t
    simp only [process_dataset, hpl, Except.ok.injEq] at h
    subst h
    obtain ⟨h1, h2, h3⟩ := processLines_length cfg lines us its ds hpl
    exact ⟨h3, h1, h2⟩

set_option maxRecDepth 40000 in
/-- C6 witness: two input lines, one truthy and one `{}`; each table has
exactly one row. -/
theorem row_count_invariant_witness :
    process_dataset cfg0 [goodLine, emptyObjLine] = .ok goodOut ∧
    (goodOut.data_csv.length =
      (([goodLine, emptyObjLine].filter decodesNonEmpty)).length ∧
     goodOut.users_csv.length =
      (([goodLine, emptyObjLine].filter decodesNonEmpty)).length ∧
     goodOut.items_csv.length =
      (([goodLine, emptyObjLine].filter decodesNonEmpty)).length) := by
  refine ⟨by with_unfolding_all rfl, ?_⟩
  exact row_count_invariant cfg0 [goodLine, emptyObjLine] goodOut
    (by with_unfolding_all rfl)

theorem processLines_error (cfg : Config) (lines : List (List Char))
    (line : List Char) (e : Err) (hmem : line ∈ lines)
    (herr : processLine cfg line = .error e) :
    ∃ e', processLines cfg lines = .error e' := by
  induction lines with
  | nil => cases hmem
  | cons l rest ih =>
    rcases List.mem_cons.1 hmem with h | h
    · subst h
      exact ⟨e, by simp [processLines, herr]⟩
    · cases hl : processLine cfg l with
      | error e0 => exact ⟨e0, by simp [processLines, hl]⟩
      | ok o =>
        obtain ⟨e', he'⟩ := ih h
        cases o with
        | none => exact ⟨e', by simp [processLines, hl, he']⟩
        | some t =>
          obtain ⟨u, it, d⟩ := t
          exact ⟨e', by simp [processLines, hl, he']⟩

/-- C7: every per-line failure (`ParseError`, `MissingFieldError`,
`FormatError`, ...) is fatal: if any input line fails to process, the whole
run returns an error, so no output tables are produced at all — the `Output`
bundling all three tables exists only for a fully successful pass (the batch
write happens after the loop), hence all three tables are written or none. -/
theorem errors_are_fatal (cfg : Config) (lines : List (List Char))
    (line : List Char) (e : Err) (hmem : line ∈ lines)
    (herr : processLine cfg line = .error e) :
    ∃ e', process_dataset cfg lines = .error e' := by
  obtain ⟨e', he'⟩ := processLines_error cfg lines line e hmem herr
  exact ⟨e', by simp [process_dataset, he']⟩

/-- C7 witness: a run containing a non-decodable line produces an error and
no output. -/
theorem errors_are_fatal_witness :
    notJsonLine ∈ [goodLine, notJsonLine] ∧
    processLine cfg0 notJsonLine = .error .parseError ∧
    ∃ e', process_dataset cfg0 [goodLine, notJsonLine] = .error e' := by
  refine ⟨by simp, by with_unfolding_all rfl, ?_⟩
  exact errors_are_fatal cfg0 [goodLine, notJsonLine] notJsonLine .parseError
    (by simp) (by with_unfolding_all rfl)

theorem processLine_ids (cfg : Config) (line : List Char) (u : UserRow)
    (it : ItemRow) (d : InterRow)
    (h : processLine cfg line = .ok (some (u, it, d))) :
    u.user_id = d.user_id ∧ it.item_id = d.item_id := by
  obtain ⟨row, -, -, hbu, hbi, hbs⟩ := processLine_some_inv cfg line u it d h
  obtain ⟨huid, -⟩ := buildUser_inv row u hbu
  obtain ⟨iid, nm, st, ab, hiid, -, -, -, hitem⟩ := buildItem_inv row it hbi
  obtain ⟨rs, aps, ars, pas, tas, huid', hiid', -, -, -, -, -, -, -, -, -, -, -, -⟩ :=
    buildSample_inv cfg row d hbs
  constructor
  · exact Except.ok.inj (huid.symm.trans huid')
  · subst hitem
    exact Except.ok.inj (hiid.symm.trans hiid')

theorem processLines_aligned (cfg : Config) (lines : List (List Char))
    (us : List UserRow) (its : List ItemRow) (ds : List InterRow)
    (h : processLines cfg lines = .ok (us, its, ds)) :
    (us.length = ds.length ∧ its.length = ds.length) ∧
    ∀ i (hu : i < us.length) (hi : i < its.length) (hd : i < ds.length),
      ∃ line ∈ lines,
        processLine cfg line =
          .ok (some (us.get ⟨i, hu⟩, its.get ⟨i, hi⟩, ds.get ⟨i, hd⟩)) := by
  induction lines generalizing us its ds with
  | nil =>
    simp only [processLines, Except.ok.injEq, Prod.mk.injEq] at h
    obtain ⟨h1, h2, h3⟩ := h
    subst h1; subst h2; subst h3
    refine ⟨⟨rfl, rfl⟩, ?_⟩
    intro i hu _ _
    cases hu
  | cons line rest ih =>
    cases hl : processLine cfg line with
    | error e => simp [processLines, hl] at h
    | ok o =>
      cases o with
      | none =>
        simp only [processLines, hl] at h
        obtain ⟨hlen, hget⟩ := ih us its ds h
        refine ⟨hlen, fun i hu hi hd => ?_⟩
        obtain ⟨l, hlmem, hproc⟩ := hget i hu hi hd
        exact ⟨l, List.mem_cons_of_mem _ hlmem, hproc⟩
      | some t =>
        obtain ⟨u, it, d⟩ := t
        cases hrest : processLines cfg rest with
        | error e => simp [processLines, hl, hrest] at h
        | ok t' =>
          obtain ⟨us', its', ds'⟩ := t'
          simp only [processLines, hl, hrest, Except.ok.injEq, Prod.mk.injEq] at h
          obtain ⟨h1, h2, h3⟩ := h
          subst h1; subst h2; subst h3
          obtain ⟨⟨hlen1, hlen2⟩, hget⟩ := ih us' its' ds' hrest
          refine ⟨⟨by simp [hlen1], by simp [hlen2]⟩, ?_⟩
          intro i hu hi hd
          cases i with
          | zero => exact ⟨line, List.mem_cons_self _ _, hl⟩
          | succ n =>
            have hu' : n < us'.length := by simpa using hu
            have hi' : n < its'.length := by simpa using hi
            have hd' : n < ds'.length := by simpa using hd
            obtain ⟨l, hlmem, hproc⟩ := hget n hu' hi' hd'
            exact ⟨l, List.mem_cons_of_mem _ hlmem, hproc⟩

/-- C10: for every run that completes, the three tables are row-aligned:
equal row counts, and row `i` of users, items and interactions all derive
from the same input line; in particular the `user_id` of users row `i`
equals the `user_id` of interactions row `i`, and likewise for `item_id`. -/
theorem tables_row_aligned (cfg : Config) (lines : List (List Char))
    (out : Output) (h : process_dataset cfg lines = .ok out) :
    (out.users_csv.length = out.data_csv.length ∧
     out.items_csv.length = out.data_csv.length) ∧
    ∀ i (hu : i < out.users_csv.length) (hi : i < out.items_csv.length)
      (hd : i < out.data_csv.length),
      (∃ line ∈ lines,
        processLine cfg line =
          .ok (some (out.users_csv.get ⟨i, hu⟩, out.items_csv.get ⟨i, hi⟩,
            out.data_csv.get ⟨i, hd⟩))) ∧
      (out.users_csv.get ⟨i, hu⟩).user_id = (out.data_csv.get ⟨i, hd⟩).user_id ∧
      (out.items_csv.get ⟨i, hi⟩).item_id = (out.data_csv.get ⟨i, hd⟩).item_id := by
  cases hpl : processLines cfg lines with
  | error e => simp [process_dataset, hpl] at h
  | ok t =>
    obtain ⟨us, its, ds⟩ := t
    simp only [process_dataset, hpl, Except.ok.injEq] at h
    subst h
    obtain ⟨hlen, hget⟩ := processLines_aligned cfg lines us its ds hpl
    refine ⟨hlen, fun i hu hi hd => ?_⟩
    obtain ⟨l, hlmem, hproc⟩ := hget i hu hi hd
    obtain ⟨hid1, hid2⟩ := processLine_ids cfg l _ _ _ hproc
    exact ⟨⟨l, hlmem, hproc⟩, hid1, hid2⟩

set_option maxRecDepth 40000 in
/-- C10 witness: a completed one-line run; the single rows of the three
tables derive from that line and share their foreign keys. -/
theorem tables_row_aligned_witness :
    process_dataset cfg0 [goodLine] = .ok goodOut ∧
    ((goodOut.users_csv.length = goodOut.data_csv.length ∧
      goodOut.items_csv.length = goodOut.data_csv.length) ∧
     ∀ i (hu : i < goodOut.users_csv.length) (hi : i < goodOut.items_csv.length)
       (hd : i < goodOut.data_csv.length),
       (∃ line ∈ [goodLine],
         processLine cfg0 line =
           .ok (some (goodOut.users_csv.get ⟨i, hu⟩, goodOut.items_csv.get ⟨i, hi⟩,
             goodOut.data_csv.get ⟨i, hd⟩))) ∧
       (goodOut.users_csv.get ⟨i, hu⟩).user_id =
         (goodOut.data_csv.get ⟨i, hd⟩).user_id ∧
       (goodOut.items_csv.get ⟨i, hi⟩).item_id =
         (goodOut.data_csv.get ⟨i, hd⟩).item_id) := by
  refine ⟨by with_unfolding_all rfl, ?_⟩
  exact tables_row_aligned cfg0 [goodLine] goodOut (by with_unfolding_all rfl)
